import Mathlib

/-!
Shallow embedding of the directory scanner and size aggregator of the
`filesystem` repository (Go, `src/main.go` JSON variant and
`src/unnamed/part_000` HTML variant; the two variants share the same
`listDirByReadDir`, `getDirSize` and `sortFileList` logic, differing only in
the numeric type of `Size` and the front end).

The filesystem itself is modelled as a tree `FSNode`.  A `file` node carries
its base name, its byte size, and a flag `statOk` saying whether fetching its
metadata (`os.Lstat` during `filepath.Walk`, `DirEntry.Info` during the scan)
succeeds.  A `dir` node carries its base name, the metadata size reported by
the filesystem for the directory entry itself, a `statOk` flag, a `readOk`
flag saying whether listing the directory (`os.ReadDir` / the read step of
`filepath.Walk`) succeeds, and its children.  A path that does not exist or
is not a directory is modelled by `rootUnlistable` below.

Numeric sizes are modelled as `ℤ` for the `int64` variant; the `float64`
arithmetic of `convertSize` is modelled in exact rational arithmetic `ℚ`
(at every input considered here the `float64` computation is exact or agrees
with the exact computation, since only multiples and quotients of powers of
10 below 2^53 are involved in the decisive comparisons).
-/

namespace FsScan

/-- Tree model of a filesystem subtree. -/
inductive FSNode : Type where
  | file (name : String) (size : ℤ) (statOk : Bool)
  | dir (name : String) (metaSize : ℤ) (statOk : Bool) (readOk : Bool)
        (children : List FSNode)

/-- Base name of the node, i.e. `filepath.Base` of the node's path. -/
def FSNode.name : FSNode → String
  | .file n _ _ => n
  | .dir n _ _ _ _ => n

mutual

/-- Embedding of the `filepath.Walk` traversal performed by `getDirSize`
(`src/main.go:157-171`): visit the node; a stat failure or a directory read
failure is an error returned by the walk callback, which aborts the whole
walk (`none`).  For a directory whose base name differs from the base name
of the walk root, its reported metadata size is added; for a regular file its
byte size is added. -/
def walkSum (rootBase : String) : FSNode → Option ℤ
  | .file _ sz statOk => if statOk then some sz else none
  | .dir nm ms statOk readOk children =>
    if statOk then
      if readOk then
        match walkSumList rootBase children with
        | some s => some ((if nm ≠ rootBase then ms else 0) + s)
        | none => none
      else none
    else none

/-- Walk of a list of sibling nodes; any error aborts the whole walk. -/
def walkSumList (rootBase : String) : List FSNode → Option ℤ
  | [] => some 0
  | c :: cs =>
    match walkSum rootBase c, walkSumList rootBase cs with
    | some a, some b => some (a + b)
    | _, _ => none

end

/-- Embedding of `getDirSize` (`src/main.go:153-178`): walk the subtree
rooted at the node, with the root-exclusion test `info.Name() !=
filepath.Base(path)` becoming a comparison against the root node's base
name; on any walk error return `0`. -/
def getDirSize (t : FSNode) : ℤ :=
  match walkSum t.name t with
  | some s => s
  | none => 0

mutual

/-- Modelled from the spec (§3 invariant, §4.1): the size a directory is
supposed to get — the sum of the byte lengths of all regular files
transitively contained under the root, plus the metadata size of every
directory strictly beneath the root, the root's own metadata entry excluded.
Used only to compare `getDirSize` against the claimed sum. -/
def specDirSize : FSNode → ℤ
  | .file _ sz _ => sz
  | .dir _ _ _ _ children => specSizeList children

/-- Total weight of a list of non-root nodes, per the spec's sum. -/
def specSizeList : List FSNode → ℤ
  | [] => 0
  | c :: cs => specNodeSize c + specSizeList cs

/-- Full weight of a node strictly beneath the root: files count their byte
size, directories count their metadata size plus their contents. -/
def specNodeSize : FSNode → ℤ
  | .file _ sz _ => sz
  | .dir _ ms _ _ children => ms + specSizeList children

end

mutual

/-- Whether the `filepath.Walk` traversal of this subtree reports an error
anywhere: a stat failure on any visited node or a read failure on any
visited directory. -/
def hasWalkError : FSNode → Bool
  | .file _ _ statOk => !statOk
  | .dir _ _ statOk readOk children =>
    !statOk || !readOk || hasWalkErrorList children

/-- Whether some sibling's subtree reports a walk error. -/
def hasWalkErrorList : List FSNode → Bool
  | [] => false
  | c :: cs => hasWalkError c || hasWalkErrorList cs

end

/-- Entry record produced by the scanner, mirroring `FileInfo` of
`src/main.go:21-26` (the `int64` variant). -/
structure FileInfo : Type where
  Name : String
  Size : ℤ
  IsDir : Bool
  Path : String
deriving DecidableEq

/-- Embedding of `filepath.Join(path, name)` for the non-empty relative
names produced by a directory listing. -/
def pathJoin (path name : String) : String := path ++ "/" ++ name

/-- Body of the per-child goroutine of `listDirByReadDir`
(`src/main.go:120-145`): a directory child always yields an entry whose size
is `getDirSize` of the child; a file child yields an entry with the size from
its metadata, or no entry at all when fetching the metadata fails (the
goroutine returns before appending). -/
def scanChild (path : String) : FSNode → Option FileInfo
  | .file nm sz statOk =>
    if statOk then some ⟨nm, sz, false, pathJoin path nm⟩ else none
  | .dir nm ms statOk readOk cs =>
    some ⟨nm, getDirSize (.dir nm ms statOk readOk cs), true, pathJoin path nm⟩

/-- Embedding of `listDirByReadDir` (`src/main.go:106-150`).  The Go function
returns `(nil, err)` when `os.ReadDir` fails and otherwise appends one entry
per successful child under a mutex, in goroutine completion order.  The
completion order is nondeterministic, so the embedding takes it as an extra
argument `order`; theorems quantify over every permutation of the children.
The error is modelled as `Option Unit` (`some ()` = non-nil error). -/
def listDirByReadDir (path : String) (root : FSNode) (order : List FSNode) :
    List FileInfo × Option Unit :=
  match root with
  | .file _ _ _ => ([], some ())
  | .dir _ _ _ readOk _ =>
    if readOk then (order.filterMap (scanChild path), none)
    else ([], some ())

/-- Whether the root path cannot be listed by `os.ReadDir`: it is not a
directory, or reading the directory fails (permission denied; a path that
does not exist is modelled the same way, as a failing read). -/
def rootUnlistable : FSNode → Bool
  | .file _ _ _ => true
  | .dir _ _ _ readOk _ => !readOk

/-- Whether the scan can obtain the child's metadata: directory children
never need an extra stat (classification and size come from the listing and
the walk), file children need `DirEntry.Info` to succeed. -/
def childInfoOk : FSNode → Bool
  | .file _ _ statOk => statOk
  | .dir _ _ _ _ _ => true

/-- Embedding of `sortFileList` (`src/main.go:181-194`).  `sort.Slice` with
comparison `less` produces a permutation ordered so that no later element is
`less` than an earlier one; it is modelled by `List.mergeSort` with the
complement of the source's `less` swapped, which has exactly that
postcondition (the unstable tie order of `sort.Slice` is itself
nondeterministic, and no claim depends on it). -/
def sortFileList (fileList : List FileInfo) (sortType : String) : List FileInfo :=
  fileList.mergeSort (fun a b =>
    !(if sortType = "asc" then decide (b.Size < a.Size) else decide (b.Size > a.Size)))

/-- Embedding of the division loop of `convertSize`
(`src/unnamed/part_000:280-287`): divide by 1000 and bump the counter while
the value is at least 1000.  The `float64` value is modelled as an exact
rational. -/
def convertLoop (size : ℚ) (counter : ℕ) : ℚ × ℕ :=
  if 1000 ≤ size then convertLoop (size / 1000) (counter + 1) else (size, counter)
termination_by ⌊size⌋₊
decreasing_by
  rename_i h
  have h1000 : (1000 : ℕ) ≤ ⌊size⌋₊ := Nat.le_floor (by exact_mod_cast h)
  have hdiv : ⌊size / 1000⌋₊ = ⌊size⌋₊ / 1000 := by
    have := Nat.floor_div_nat size 1000
    simpa using this
  have : ⌊size⌋₊ / 1000 < ⌊size⌋₊ :=
    Nat.div_lt_self (lt_of_lt_of_le (by norm_num) h1000) (by norm_num)
  omega

/-- Unit label for the number of divisions performed, per the `switch` of
`convertSize` (`src/unnamed/part_000:288-299`); a Go `switch` with no
matching case leaves `value` at its zero value `""`. -/
def unitOf : ℕ → String
  | 0 => "байт"
  | 1 => "килобайт"
  | 2 => "мегабайт"
  | 3 => "гигабайт"
  | 4 => "терабайт"
  | _ => ""

/-- Embedding of Go's `math.Round`: round to the nearest integer, halves
away from zero. -/
def goRound (x : ℚ) : ℤ :=
  if 0 ≤ x then ⌊x + 1 / 2⌋ else -⌊-x + 1 / 2⌋

/-- Embedding of `convertSize` (`src/unnamed/part_000:277-302`): run the
division loop, pick the unit label from the counter, and round the remaining
value to one decimal place after the loop. -/
def convertSize (size : ℚ) : ℚ × String :=
  let p := convertLoop size 0
  (((goRound (p.1 * 10) : ℚ) / 10), unitOf p.2)

/-- Responses the JSON variant's handler can produce. -/
inductive JsonResponse : Type where
  | badRequest (msg : String)
  | serverError (msg : String)
  | ok (body : List FileInfo)
deriving DecidableEq

/-- Embedding of `handleFileSystem` of the JSON variant (`src/main.go:76-103`).
What the real filesystem would make `listDirByReadDir` return on a path is
abstracted as the oracle `scan`; a result independent of the oracle
formalises that the handler touched no filesystem state on that input. -/
def handleFileSystem (scan : String → List FileInfo × Option Unit)
    (dirPath sortType : String) : JsonResponse :=
  if dirPath = "" then .badRequest "не указана директория (root)"
  else if sortType ≠ "asc" ∧ sortType ≠ "desc" then
    .badRequest "неправильно указан тип сортировки. Используйте 'asc' или 'desc'"
  else
    match scan dirPath with
    | (_, some _) => .serverError "ошибка чтения"
    | (fileList, none) => .ok (sortFileList fileList sortType)

/-- Whether the JSON handler rejected the request with a Bad Request. -/
def jsonRejects : JsonResponse → Bool
  | .badRequest _ => true
  | _ => false

/-- Entry record of the HTML variant (`src/unnamed/part_000:21-27`): the size
is a float (modelled as `ℚ`) and a unit label is filled in after conversion. -/
structure WebFileInfo : Type where
  Name : String
  Size : ℚ
  Unit : String
  IsDir : Bool
  Path : String
deriving DecidableEq

/-- Data rendered into the HTML template (`src/unnamed/part_000:30-35`);
`EndTime` is wall-clock presentation and is not modelled. -/
structure PageData : Type where
  FileList : List WebFileInfo
  ErrorMsg : String
  LastPath : String
deriving DecidableEq

/-- Zero value `PageData{}` rendered for the bare input form. -/
def PageData.empty : PageData := ⟨[], "", ""⟩

/-- Responses the HTML variant's handler can produce: a rendered page or a
plain `http.Error` Bad Request. -/
inductive WebResponse : Type where
  | page (data : PageData)
  | badRequest (msg : String)
deriving DecidableEq

/-- Embedding of `parseFlags` (`src/unnamed/part_000:169-183`): on any
validation failure it returns empty path and sort strings along with the
error. -/
def parseFlags (root sortType : String) : String × String × Option String :=
  if root = "" then ("", "", some "не указана директория(root)")
  else if sortType ≠ "asc" ∧ sortType ≠ "desc" then
    ("", "", some "неправильно указан тип сортировки. Используйте 'asc' или 'desc'")
  else (root, sortType, none)

/-- The HTML variant's `sortFileList` (`src/unnamed/part_000:261-274`), the
same comparison over float sizes. -/
def sortFileListW (fileList : List WebFileInfo) (sortType : String) : List WebFileInfo :=
  fileList.mergeSort (fun a b =>
    !(if sortType = "asc" then decide (b.Size < a.Size) else decide (b.Size > a.Size)))

/-- Embedding of `handleFileSystem` of the HTML variant
(`src/unnamed/part_000:90-151`).  On a `parseFlags` failure the returned
`dirPath` is always empty, so the handler renders the empty form; the
`http.Error` branch would need a failing `parseFlags` to return a non-empty
path.  On success it sorts, converts every size to a unit, and renders the
page (the fire-and-forget statistics POST and the timing are external side
calls, not modelled). -/
def handleFileSystemWeb (scan : String → List WebFileInfo × Option String)
    (root sortType : String) : WebResponse :=
  match parseFlags root sortType with
  | (dirPath, _, some e) =>
    if dirPath = "" then .page PageData.empty else .badRequest e
  | (dirPath, st, none) =>
    match scan dirPath with
    | (_, some e) => .page ⟨[], "Ошибка чтения директории: " ++ e, ""⟩
    | (fileList, none) =>
      .page ⟨(sortFileListW fileList st).map (fun fi =>
        { fi with Size := (convertSize fi.Size).1, Unit := (convertSize fi.Size).2 }),
        "", dirPath⟩

/-- Whether the HTML handler surfaced a failure to the client: a Bad Request
or a page with a non-empty error message. -/
def webRejects : WebResponse → Bool
  | .badRequest _ => true
  | .page d => !(d.ErrorMsg = "")

/-! ### Helper lemmas -/

mutual

/-- A walk error anywhere in the subtree makes the whole walk fail. -/
theorem walkSum_none_of_error (t : FSNode) (h : hasWalkError t = true) :
    ∀ b, walkSum b t = none := by
  cases t with
  | file n sz ok => cases ok <;> simp_all [hasWalkError, walkSum]
  | dir nm ms sOk rOk cs =>
    intro b
    cases sOk <;> cases rOk <;> simp_all [hasWalkError, walkSum]
    simp [walkSumList_none_of_error cs h b]

/-- A walk error in some sibling's subtree makes the walk of the list fail. -/
theorem walkSumList_none_of_error (l : List FSNode)
    (h : hasWalkErrorList l = true) : ∀ b, walkSumList b l = none := by
  cases l with
  | nil => simp [hasWalkErrorList] at h
  | cons c cs =>
    intro b
    simp only [hasWalkErrorList, Bool.or_eq_true] at h
    simp only [walkSumList]
    rcases h with h | h
    · simp [walkSum_none_of_error c h b]
    · cases hc : walkSum b c <;> simp [walkSumList_none_of_error cs h b]

end

/-- When `f` succeeds on every element, `filterMap` keeps the length. -/
theorem length_filterMap_of_isSome {α β : Type} (f : α → Option β) :
    ∀ l : List α, (∀ x ∈ l, (f x).isSome) → (l.filterMap f).length = l.length := by
  intro l
  induction l with
  | nil => simp
  | cons x xs ih =>
    intro h
    rw [List.filterMap_cons]
    rcases hx : f x with _ | y
    · have hs := h x (by simp)
      simp [hx] at hs
    · simp only [List.length_cons]
      rw [ih (fun z hz => h z (by simp [hz]))]

/-! ### Example inputs -/

/-- Root directory `a` (metadata 4096) holding a 10-byte file and a nested
directory that is also named `a` (metadata 4096) holding a 20-byte file;
every stat and read succeeds. -/
def nameCollisionTree : FSNode :=
  .dir "a" 4096 true true
    [.file "f" 10 true, .dir "a" 4096 true true [.file "g" 20 true]]

/-- A subtree full of readable files except one whose stat fails. -/
def permDeniedTree : FSNode :=
  .dir "big" 4096 true true
    [.file "ok1" 100 true,
     .dir "sub" 4096 true true [.file "denied" 55 false, .file "ok2" 7 true]]

/-- A directory whose listing fails (permission denied / nonexistent). -/
def lockedDir : FSNode := .dir "locked" 4096 true false [.file "x" 3 true]

/-! ### Claims -/

/-- C1: the claim says `getDirSize` excludes exactly the root directory's own
metadata entry and no other visited entry.  The code excludes every visited
directory whose base name equals `filepath.Base` of the root path, so a
nested directory named like the root is wrongly excluded: on
`nameCollisionTree` the code returns `10 + 20 = 30` while the claimed sum is
`10 + (4096 + 20) = 4126`.  The spec's stated intent (exclude the root itself
to prevent double-counting) marks the name comparison as a slip in the code. -/
theorem getDirSize_name_collision_eval :
    getDirSize nameCollisionTree = 30 ∧ specDirSize nameCollisionTree = 4126 := by
  decide

/-- C4: on any traversal error anywhere in the recursive walk, `getDirSize`
returns exactly 0 for the subtree, never a partial sum. -/
theorem getDirSize_zero_on_walk_error (t : FSNode) (h : hasWalkError t = true) :
    getDirSize t = 0 := by
  unfold getDirSize
  rw [walkSum_none_of_error t h t.name]

/-- Witness for C4: one denied stat deep inside `permDeniedTree` zeroes the
whole subtree even though 4203 bytes of it were readable. -/
theorem getDirSize_zero_on_walk_error_check :
    hasWalkError permDeniedTree = true ∧ getDirSize permDeniedTree = 0 :=
  ⟨by decide, getDirSize_zero_on_walk_error permDeniedTree (by decide)⟩

/-- C5: when the root path cannot be listed, `listDirByReadDir` returns a
non-nil error together with a nil entry list — no partial result. -/
theorem listDirByReadDir_root_error_no_partial (path : String) (root : FSNode)
    (order : List FSNode) (h : rootUnlistable root = true) :
    listDirByReadDir path root order = ([], some ()) := by
  cases root with
  | file n s ok => simp [listDirByReadDir]
  | dir n ms sOk rOk cs =>
    simp only [rootUnlistable, Bool.not_eq_true'] at h
    simp [listDirByReadDir, h]

/-- Witness for C5 at an unreadable directory. -/
theorem listDirByReadDir_root_error_no_partial_check :
    rootUnlistable lockedDir = true ∧
    listDirByReadDir "/p" lockedDir [.file "x" 3 true] = ([], some ()) :=
  ⟨by decide,
   listDirByReadDir_root_error_no_partial "/p" lockedDir [.file "x" 3 true]
     (by decide)⟩

/-- Three readable children used to exercise the scanner. -/
def scanChildren : List FSNode :=
  [.file "a" 5 true,
   .dir "d" 4096 true true [.file "in" 2 true],
   .file "b" 1 true]

/-- C3: for a listable directory whose children's metadata is all obtainable,
the scan returns no error and exactly one entry per immediate child — the
result is a permutation of the per-child entries and has exactly `n`
elements — for every concurrent completion order (any permutation of the
children). -/
theorem listDirByReadDir_entry_per_child (path nm : String) (ms : ℤ)
    (sOk : Bool) (children order : List FSNode) (hperm : order.Perm children)
    (hok : ∀ c ∈ children, childInfoOk c = true) :
    (listDirByReadDir path (.dir nm ms sOk true children) order).2 = none ∧
    (listDirByReadDir path (.dir nm ms sOk true children) order).1.Perm
      (children.filterMap (scanChild path)) ∧
    (listDirByReadDir path (.dir nm ms sOk true children) order).1.length
      = children.length := by
  have hres : listDirByReadDir path (.dir nm ms sOk true children) order
      = (order.filterMap (scanChild path), none) := by
    simp [listDirByReadDir]
  refine ⟨by rw [hres], ?_, ?_⟩
  · rw [hres]
    exact hperm.filterMap _
  · rw [hres]
    have hlen : (order.filterMap (scanChild path)).length = order.length := by
      apply length_filterMap_of_isSome
      intro x hx
      have hx' : x ∈ children := hperm.mem_iff.mp hx
      have hxo := hok x hx'
      cases x with
      | file n s ok =>
        simp only [childInfoOk] at hxo
        simp [scanChild, hxo]
      | dir n m so ro cs => simp [scanChild]
    rw [hlen, hperm.length_eq]

/-- Witness for C3: the three children of `scanChildren`, completed in
reversed order, still yield exactly three entries and no error. -/
theorem listDirByReadDir_entry_per_child_check :
    scanChildren.reverse.Perm scanChildren ∧
    (∀ c ∈ scanChildren, childInfoOk c = true) ∧
    ((listDirByReadDir "/r" (.dir "root" 4096 true true scanChildren)
        scanChildren.reverse).2 = none ∧
     (listDirByReadDir "/r" (.dir "root" 4096 true true scanChildren)
        scanChildren.reverse).1.Perm
       (scanChildren.filterMap (scanChild "/r")) ∧
     (listDirByReadDir "/r" (.dir "root" 4096 true true scanChildren)
        scanChildren.reverse).1.length = scanChildren.length) :=
  ⟨scanChildren.reverse_perm, by decide,
   listDirByReadDir_entry_per_child "/r" "root" 4096 true scanChildren
     scanChildren.reverse scanChildren.reverse_perm (by decide)⟩

/-- C6: a file child whose metadata cannot be fetched is silently dropped:
the scan still succeeds and the result is exactly the entries of the
remaining children, with no entry for the failed child, for every concurrent
completion order. -/
theorem listDirByReadDir_drops_failed_child (path nm fnm : String)
    (ms fsz : ℤ) (sOk : Bool) (pre post order : List FSNode)
    (hperm : order.Perm (pre ++ .file fnm fsz false :: post)) :
    (listDirByReadDir path
        (.dir nm ms sOk true (pre ++ .file fnm fsz false :: post)) order).2
      = none ∧
    (listDirByReadDir path
        (.dir nm ms sOk true (pre ++ .file fnm fsz false :: post)) order).1.Perm
      ((pre ++ post).filterMap (scanChild path)) := by
  have hres : listDirByReadDir path
      (.dir nm ms sOk true (pre ++ .file fnm fsz false :: post)) order
      = (order.filterMap (scanChild path), none) := by
    simp [listDirByReadDir]
  refine ⟨by rw [hres], ?_⟩
  rw [hres]
  refine (hperm.filterMap _).trans ?_
  rw [List.filterMap_append, List.filterMap_cons, List.filterMap_append]
  simp [scanChild]

/-- Witness for C6: dropping the stat-failing file `bad` from between two
healthy children leaves the two healthy entries and no error. -/
theorem listDirByReadDir_drops_failed_child_check :
    ([FSNode.file "bad" 9 false, .file "a" 5 true, .file "b" 1 true].Perm
      ([.file "a" 5 true] ++ .file "bad" 9 false :: [.file "b" 1 true])) ∧
    ((listDirByReadDir "/r"
        (.dir "root" 4096 true true
          ([.file "a" 5 true] ++ .file "bad" 9 false :: [.file "b" 1 true]))
        [.file "bad" 9 false, .file "a" 5 true, .file "b" 1 true]).2 = none ∧
     (listDirByReadDir "/r"
        (.dir "root" 4096 true true
          ([.file "a" 5 true] ++ .file "bad" 9 false :: [.file "b" 1 true]))
        [.file "bad" 9 false, .file "a" 5 true, .file "b" 1 true]).1.Perm
       (([FSNode.file "a" 5 true] ++ [FSNode.file "b" 1 true]).filterMap
         (scanChild "/r"))) :=
  ⟨List.Perm.swap (FSNode.file "a" 5 true) (FSNode.file "bad" 9 false)
     [FSNode.file "b" 1 true],
   listDirByReadDir_drops_failed_child "/r" "root" "bad" 4096 9 true
     [.file "a" 5 true] [.file "b" 1 true]
     [.file "bad" 9 false, .file "a" 5 true, .file "b" 1 true]
     (List.Perm.swap (FSNode.file "a" 5 true) (FSNode.file "bad" 9 false)
       [FSNode.file "b" 1 true])⟩

/-- Example entries with the spec's sizes `[5, 1, 3]`. -/
def exEntries : List FileInfo :=
  [⟨"a", 5, false, "/r/a"⟩, ⟨"b", 1, false, "/r/b"⟩, ⟨"c", 3, true, "/r/c"⟩]

/-- C7: `sortFileList` permutes the entries (nothing duplicated or dropped)
and orders them purely by the `size` field — nondecreasing for `"asc"`,
nonincreasing for `"desc"` — with ties in arbitrary order. -/
theorem sortFileList_sorts_by_size (l : List FileInfo) (st : String) :
    (sortFileList l st).Perm l ∧
    (st = "asc" →
      (sortFileList l st).Pairwise (fun a b => a.Size ≤ b.Size)) ∧
    (st = "desc" →
      (sortFileList l st).Pairwise (fun a b => b.Size ≤ a.Size)) := by
  refine ⟨List.mergeSort_perm l _, ?_, ?_⟩
  · rintro rfl
    have hs := @List.sorted_mergeSort FileInfo
      (fun a b =>
        !(if ("asc" : String) = "asc" then decide (b.Size < a.Size)
          else decide (b.Size > a.Size)))
      (fun a b c hab hbc => by simp_all; omega)
      (fun a b => by simp; omega) l
    exact hs.imp (fun h => by simp_all)
  · rintro rfl
    have hs := @List.sorted_mergeSort FileInfo
      (fun a b =>
        !(if ("desc" : String) = "asc" then decide (b.Size < a.Size)
          else decide (b.Size > a.Size)))
      (fun a b c hab hbc => by simp_all; omega)
      (fun a b => by simp; omega) l
    exact hs.imp (fun h => by simp_all)

/-- Witness for C7: the spec's example `[5, 1, 3]` sorted both ways, via the
theorem applied at `"asc"` and at `"desc"`. -/
theorem sortFileList_sorts_by_size_check :
    ((sortFileList exEntries "asc").Perm exEntries ∧
     (sortFileList exEntries "asc").Pairwise (fun a b => a.Size ≤ b.Size)) ∧
    (sortFileList exEntries "desc").Pairwise (fun a b => b.Size ≤ a.Size) :=
  ⟨⟨(sortFileList_sorts_by_size exEntries "asc").1,
    (sortFileList_sorts_by_size exEntries "asc").2.1 rfl⟩,
   (sortFileList_sorts_by_size exEntries "desc").2.2 rfl⟩

/-- C10: every `sortType` other than the exact string `"asc"` — the empty
string included — takes the `else` branch of the comparison and sorts in
nonincreasing size order, still as a permutation and with no error. -/
theorem sortFileList_default_desc (l : List FileInfo) (st : String)
    (h : st ≠ "asc") :
    (sortFileList l st).Perm l ∧
    (sortFileList l st).Pairwise (fun a b => b.Size ≤ a.Size) := by
  refine ⟨List.mergeSort_perm l _, ?_⟩
  have hs := @List.sorted_mergeSort FileInfo
    (fun a b =>
      !(if st = "asc" then decide (b.Size < a.Size)
        else decide (b.Size > a.Size)))
    (fun a b c hab hbc => by simp_all [h]; omega)
    (fun a b => by simp [h]; omega) l
  exact hs.imp (fun hx => by simp_all [h])

/-- Witness for C10: the empty sort type sorts `exEntries` descending. -/
theorem sortFileList_default_desc_check :
    ("" : String) ≠ "asc" ∧
    ((sortFileList exEntries "").Perm exEntries ∧
     (sortFileList exEntries "").Pairwise (fun a b => b.Size ≤ a.Size)) :=
  ⟨by decide, sortFileList_default_desc exEntries "" (by decide)⟩

/-- Unfolding of the division loop while the value is at least 1000. -/
theorem convertLoop_step (s : ℚ) (c : ℕ) (h : 1000 ≤ s) :
    convertLoop s c = convertLoop (s / 1000) (c + 1) := by
  rw [convertLoop]
  exact if_pos h

/-- Unfolding of the division loop once the value is below 1000. -/
theorem convertLoop_done (s : ℚ) (c : ℕ) (h : s < 1000) :
    convertLoop s c = (s, c) := by
  rw [convertLoop]
  exact if_neg (not_le.mpr h)

/-- The division loop performs some number `k` of exact divisions by 1000
and stops exactly when the value drops below 1000. -/
theorem convertLoop_split (s : ℚ) (c : ℕ) :
    ∃ k, convertLoop s c = (s / 1000 ^ k, c + k) ∧ s / 1000 ^ k < 1000 := by
  induction s, c using convertLoop.induct with
  | case1 s c h ih =>
    rcases ih with ⟨k, hek, hlt⟩
    have hdiv : s / 1000 / 1000 ^ k = s / 1000 ^ (k + 1) := by
      rw [div_div, ← pow_succ']
    refine ⟨k + 1, ?_, ?_⟩
    · rw [convertLoop_step s c h, hek, hdiv]
      congr 1
      omega
    · rw [← hdiv]
      exact hlt
  | case2 s c h =>
    refine ⟨0, ?_, ?_⟩
    · rw [convertLoop_done s c (not_le.mp h)]
      simp
    · simpa using not_le.mp h

/-- C2 (amended): the loop of `convertSize` divides by 1000 while the value
is at least 1000 with no upper bound on the number of divisions — there is
no terabyte ceiling — and rounding to one decimal happens only after the
loop.  Consequently any size of at least 10^15 bytes gets five or more
divisions (past the terabyte unit). -/
theorem convertSize_division_uncapped (size : ℚ) :
    (convertLoop size 0).1 < 1000 ∧
    (convertLoop size 0).1 * 1000 ^ (convertLoop size 0).2 = size ∧
    ((10 : ℚ) ^ 15 ≤ size → 5 ≤ (convertLoop size 0).2) ∧
    convertSize size
      = ((goRound ((convertLoop size 0).1 * 10) : ℚ) / 10,
         unitOf (convertLoop size 0).2) := by
  obtain ⟨k, hek, hlt⟩ := convertLoop_split size 0
  have hpow : (1000 : ℚ) ^ k ≠ 0 := pow_ne_zero k (by norm_num)
  refine ⟨by rw [hek]; exact hlt, ?_, ?_, rfl⟩
  · rw [hek]
    simp only [Nat.zero_add]
    exact div_mul_cancel₀ size hpow
  · intro h10
    rw [hek]
    simp only [Nat.zero_add]
    by_contra hk5
    push_neg at hk5
    have hk4 : (1000 : ℚ) ^ k ≤ 1000 ^ 4 :=
      pow_le_pow_right₀ (by norm_num) (by omega)
    have hsz : size = size / 1000 ^ k * 1000 ^ k := (div_mul_cancel₀ size hpow).symm
    have hlt' : size / 1000 ^ k * 1000 ^ k < 1000 * 1000 ^ 4 := by
      calc size / 1000 ^ k * 1000 ^ k
          < 1000 * 1000 ^ k :=
            mul_lt_mul_of_pos_right hlt (pow_pos (by norm_num) k)
        _ ≤ 1000 * 1000 ^ 4 := by nlinarith
    rw [← hsz] at hlt'
    have h1015 : (1000 : ℚ) * 1000 ^ 4 = 10 ^ 15 := by norm_num
    rw [h1015] at hlt'
    linarith

/-- Witness for C2 (amended) at 10^15 bytes: the bound hypothesis holds with
equality and at least five divisions are performed. -/
theorem convertSize_division_uncapped_check :
    ((10 : ℚ) ^ 15 ≤ (10 : ℚ) ^ 15) ∧ 5 ≤ (convertLoop ((10 : ℚ) ^ 15) 0).2 :=
  ⟨le_refl _,
   (convertSize_division_uncapped ((10 : ℚ) ^ 15)).2.2.1 (le_refl _)⟩

/-- Counterexample to C2 as stated: on 10^15 bytes the loop performs five
divisions, not at most four, and the unit label ends up empty rather than
stopping at the terabyte unit. -/
theorem convertLoop_ten_pow_15_five_divisions :
    (convertLoop ((10 : ℚ) ^ 15) 0).2 = 5 ∧
    (convertSize ((10 : ℚ) ^ 15)).2 = "" := by
  have h : convertLoop ((10 : ℚ) ^ 15) 0 = (1, 5) := by
    rw [convertLoop_step _ _ (by norm_num)]
    norm_num
    rw [convertLoop_step _ _ (by norm_num)]
    norm_num
    rw [convertLoop_step _ _ (by norm_num)]
    norm_num
    rw [convertLoop_step _ _ (by norm_num)]
    norm_num
    rw [convertLoop_step _ _ (by norm_num)]
    norm_num
    exact convertLoop_done 1 5 (by norm_num)
  refine ⟨by rw [h], ?_⟩
  have h2 : (convertSize ((10 : ℚ) ^ 15)).2
      = unitOf (convertLoop ((10 : ℚ) ^ 15) 0).2 := rfl
  rw [h2, h]
  rfl

/-- C8: converting 999,999 bytes divides exactly once (unit index 1,
kilobytes) and only then rounds, producing exactly 1000.0 without being
divided again. -/
theorem convertSize_999999_kilobyte :
    convertSize (999999 : ℚ) = (1000, "килобайт") := by
  have h : convertLoop (999999 : ℚ) 0 = (999999 / 1000, 1) := by
    rw [convertLoop_step _ _ (by norm_num)]
    exact convertLoop_done _ _ (by norm_num)
  have hg : goRound ((999999 : ℚ) / 1000 * 10) = 10000 := by
    unfold goRound
    rw [if_pos (by norm_num)]
    rw [Int.floor_eq_iff]
    constructor <;> norm_num
  simp only [convertSize, h]
  rw [hg]
  norm_num [unitOf]

/-- Oracle standing for a filesystem on which every scan succeeds with no
entries. -/
def noopScan : String → List FileInfo × Option Unit := fun _ => ([], none)

/-- Oracle standing for a filesystem on which every scan fails. -/
def failScan : String → List FileInfo × Option Unit := fun _ => ([], some ())

/-- Web-variant oracle on which every scan succeeds with no entries. -/
def noopScanW : String → List WebFileInfo × Option String := fun _ => ([], none)

/-- Web-variant oracle on which every scan fails. -/
def failScanW : String → List WebFileInfo × Option String :=
  fun _ => ([], some "err")

/-- C9 (amended): for a missing root or a sort value other than `asc`/`desc`,
both handlers answer without any filesystem access — the response is
independent of the scan oracle.  The JSON variant rejects the request with a
Bad Request; the HTML variant, whose `parseFlags` empties the path on every
failure, renders the bare form page with no error message instead (its Bad
Request branch is unreachable). -/
theorem handlers_validate_before_scan
    (scan scan' : String → List FileInfo × Option Unit)
    (scanW scanW' : String → List WebFileInfo × Option String)
    (root st : String)
    (h : root = "" ∨ (st ≠ "asc" ∧ st ≠ "desc")) :
    handleFileSystem scan root st = handleFileSystem scan' root st ∧
    jsonRejects (handleFileSystem scan root st) = true ∧
    handleFileSystemWeb scanW root st = handleFileSystemWeb scanW' root st ∧
    handleFileSystemWeb scanW root st = .page PageData.empty := by
  by_cases hr : root = ""
  · simp [handleFileSystem, handleFileSystemWeb, parseFlags, jsonRejects, hr]
  · have hv : st ≠ "asc" ∧ st ≠ "desc" := by
      rcases h with h | h
      · exact absurd h hr
      · exact h
    simp [handleFileSystem, handleFileSystemWeb, parseFlags, jsonRejects, hr,
      hv.1, hv.2]

/-- Witness for C9 (amended) at the concrete request `root=/d&sort=bogus`,
instantiated with two oracles that disagree on every path. -/
theorem handlers_validate_before_scan_check :
    (("/d" : String) = "" ∨
      (("bogus" : String) ≠ "asc" ∧ ("bogus" : String) ≠ "desc")) ∧
    (handleFileSystem noopScan "/d" "bogus"
        = handleFileSystem failScan "/d" "bogus" ∧
     jsonRejects (handleFileSystem noopScan "/d" "bogus") = true ∧
     handleFileSystemWeb noopScanW "/d" "bogus"
        = handleFileSystemWeb failScanW "/d" "bogus" ∧
     handleFileSystemWeb noopScanW "/d" "bogus" = .page PageData.empty) :=
  ⟨Or.inr ⟨by decide, by decide⟩,
   handlers_validate_before_scan noopScan failScan noopScanW failScanW
     "/d" "bogus" (Or.inr ⟨by decide, by decide⟩)⟩

/-- Counterexample to C9 as stated: in the HTML variant a request with a
present root and the invalid sort value `bogus` is not rejected and no
validation failure is surfaced — the handler renders the bare form page with
an empty error message. -/
theorem handleFileSystemWeb_invalid_sort_renders_form :
    handleFileSystemWeb noopScanW "/tmp/data" "bogus" = .page PageData.empty ∧
    webRejects (handleFileSystemWeb noopScanW "/tmp/data" "bogus") = false := by
  constructor
  · decide
  · decide

end FsScan

